import Mathlib

/-!
Verification of the NBA-Dashboard repository: a shallow embedding of the
aggregation, trend and perfect-prop engines (`src/dashboard.py`), the
exporter averages (`src/NBA.py`, `src/NCAAM.py`), the pivot builders, the
three season-input parsers and the dashboard sheet loading, together with
theorems settling the specification claims.

Modelling conventions:
* pandas `DataFrame` wide tables become `WideTable` (a player list plus a
  list of rows); a missing (`NaN`) cell is `Option.none`, a present float is
  a rational number.
* game dates are natural-number keys: every place the source orders by the
  `Game Time (PST)` / `Game Date` column it compares `YYYY-MM-DD` strings,
  whose ordering is faithfully abstracted by any linear order on keys.
* `df.sort_values(col)` becomes `sortBy` (an insertion sort); only the
  ordering of the output by the key, and the fact that it is a permutation
  of the input, are ever used by the claims.
* Python `int` is `Int`, Python string formatting is built from `toString`.
-/

/-! ## Generic list machinery (sorting and first-occurrence dedup) -/

def insertBy {α : Type} (le : α → α → Bool) (a : α) : List α → List α
  | [] => [a]
  | b :: l => if le a b then a :: b :: l else b :: insertBy le a l

def sortBy {α : Type} (le : α → α → Bool) : List α → List α
  | [] => []
  | a :: l => insertBy le a (sortBy le l)

def firstDedupAux {α : Type} [DecidableEq α] (seen : List α) : List α → List α
  | [] => []
  | a :: l => if a ∈ seen then firstDedupAux seen l else a :: firstDedupAux (a :: seen) l

/-- First-occurrence duplicate removal, the order `pandas` uses for freshly
encountered players and game keys. -/
def firstDedup {α : Type} [DecidableEq α] (l : List α) : List α :=
  firstDedupAux [] l

/-! ## Data model

`Row` is one line of a wide stat sheet: the `Game Time (PST)` key, the
`Opponent` string, and one optional (possibly-`NaN`) cell per player column.
`WideTable` is the wide per-team stat `DataFrame` of `dashboard.py`. -/

structure Row where
  date : Nat
  opp : String
  cells : List (Option ℚ)
deriving DecidableEq, Repr

structure WideTable where
  players : List String
  rows : List Row
deriving DecidableEq, Repr

/-- One record of `compute_trends` (`dashboard.py` lines 216-226). -/
structure TrendEntry where
  player : String
  prop : String
  threshold : ℤ
  totalGamesHit : ℕ
  longestStreak : ℕ
  totalGames : ℕ
  hitPct : ℚ
deriving DecidableEq, Repr

/-- One record of `compute_perfects` (`dashboard.py` lines 271-280). -/
structure PerfectEntry where
  player : String
  team : String
  prop : String
  threshold : ℤ
  totalGames : ℕ
  hitPct : ℚ
deriving DecidableEq, Repr

/-- A returned `DataFrame` of records: its column header and its rows. -/
structure ResultTable (α : Type) where
  columns : List String
  records : List α
deriving DecidableEq, Repr

/-- Ordering of rows by the `Game Time (PST)` column, as used by
`df.sort_values("Game Time (PST)")`. -/
def rowDateLe (r s : Row) : Bool :=
  decide (r.date ≤ s.date)

/-! ## Trend engine (`compute_trends`, `dashboard.py` lines 174-243) -/

/-- Column header of the trends result (`dashboard.py` lines 180-190). -/
def trendCols : List String :=
  ["Player", "Prop", "Threshold", "Total Games Hit", "Longest Streak",
   "Total Games", "Hit %"]

/-- One step of the streak loop (`dashboard.py` lines 207-212): on a hit the
running counter increments and the maximum is updated, otherwise the running
counter resets to zero. The state is `(current_streak, longest_streak)`. -/
def streakFold (t : ℚ) (acc : ℕ × ℕ) (v : ℚ) : ℕ × ℕ :=
  if t ≤ v then (acc.1 + 1, max acc.2 (acc.1 + 1)) else (0, acc.2)

def streakPair (t : ℚ) (l : List ℚ) : ℕ × ℕ :=
  l.foldl (streakFold t) (0, 0)

/-- The `longest_streak` value reported by the forward pass. -/
def longestStreak (t : ℚ) (l : List ℚ) : ℕ :=
  (streakPair t l).2

/-- Series used by the trend loop, `df_sorted[player].fillna(0)`: the
date-sorted column `i`, with missing cells filled by `0`
(`dashboard.py` line 197). -/
def trendsSeries (rows : List Row) (i : ℕ) : List ℚ :=
  rows.map (fun r => (r.cells.getD i none).getD 0)

/-- Series used by the perfect loop, `df_sorted[player].dropna()`: the
date-sorted column `i` with missing cells dropped (`dashboard.py` line 262). -/
def perfectsSeries (rows : List Row) (i : ℕ) : List ℚ :=
  rows.filterMap (fun r => r.cells.getD i none)

/-- Sort key of the trends result:
`sort_values(["Hit %", "Longest Streak", "Total Games Hit"], ascending=False)`. -/
def trendLe (a b : TrendEntry) : Bool :=
  decide (b.hitPct < a.hitPct) ||
    (decide (a.hitPct = b.hitPct) &&
      (decide (b.longestStreak < a.longestStreak) ||
        (decide (a.longestStreak = b.longestStreak) &&
          decide (b.totalGamesHit ≤ a.totalGamesHit))))

/-- The list of trend records generated by the player/threshold loops of
`compute_trends` (`dashboard.py` lines 196-226), in generation order. -/
def trendRecords (df : WideTable) (thresholds : List ℤ) (statLabel : String) :
    List TrendEntry :=
  (List.range df.players.length).flatMap (fun i =>
    let series := trendsSeries (sortBy rowDateLe df.rows) i
    let totalGames := series.length
    if totalGames = 0 then []
    else
      thresholds.filterMap (fun (t : ℤ) =>
        let totalHits := series.countP (fun v => decide ((t : ℚ) ≤ v))
        let longest := longestStreak (t : ℚ) series
        if 3 ≤ longest then
          some
            { player := df.players.getD i ""
              prop := toString t ++ "+ " ++ statLabel
              threshold := t
              totalGamesHit := totalHits
              longestStreak := longest
              totalGames := totalGames
              hitPct := ((totalHits : ℚ) / (totalGames : ℚ)) * 100 }
        else none))

/-- Embedding of `compute_trends` (`dashboard.py` lines 174-243). -/
def computeTrends (df : WideTable) (thresholds : List ℤ) (statLabel : String) :
    ResultTable TrendEntry :=
  if df.rows.isEmpty then ⟨trendCols, []⟩
  else if (trendRecords df thresholds statLabel).isEmpty then ⟨trendCols, []⟩
  else ⟨trendCols, sortBy trendLe (trendRecords df thresholds statLabel)⟩

/-! ## Perfect-prop engine (`compute_perfects`, `dashboard.py` lines 246-289) -/

/-- Column header of the perfects result (`dashboard.py` lines 253-254). -/
def perfectCols : List String :=
  ["Player", "Team", "Prop", "Threshold", "Total Games", "Hit %"]

/-- Sort key of the perfects result:
`sort_values(["Total Games", "Threshold"], ascending=[False, True])`. -/
def perfectLe (a b : PerfectEntry) : Bool :=
  decide (b.totalGames < a.totalGames) ||
    (decide (a.totalGames = b.totalGames) && decide (a.threshold ≤ b.threshold))

/-- The list of perfect records generated by the player/threshold loops of
`compute_perfects` (`dashboard.py` lines 261-280), in generation order. -/
def perfectRecords (df : WideTable) (thresholds : List ℤ)
    (statLabel teamName : String) : List PerfectEntry :=
  (List.range df.players.length).flatMap (fun i =>
    let series := perfectsSeries (sortBy rowDateLe df.rows) i
    let totalGames := series.length
    if totalGames = 0 then []
    else
      thresholds.filterMap (fun (t : ℤ) =>
        let totalHits := series.countP (fun v => decide ((t : ℚ) ≤ v))
        if totalHits = totalGames ∧ 0 < totalGames then
          some
            { player := df.players.getD i ""
              team := teamName
              prop := toString t ++ "+ " ++ statLabel
              threshold := t
              totalGames := totalGames
              hitPct := ((totalHits : ℚ) / (totalGames : ℚ)) * 100 }
        else none))

/-- Embedding of `compute_perfects` (`dashboard.py` lines 246-289). -/
def computePerfects (df : WideTable) (thresholds : List ℤ)
    (statLabel teamName : String) : ResultTable PerfectEntry :=
  if df.rows.isEmpty then ⟨perfectCols, []⟩
  else if (perfectRecords df thresholds statLabel teamName).isEmpty then
    ⟨perfectCols, []⟩
  else
    ⟨perfectCols, sortBy perfectLe (perfectRecords df thresholds statLabel teamName)⟩

/-! ## Aggregation engine

`LongRec` is one long-format game record for a single stat category: the
per-player, per-game observation shape shared by both college trackers and
(after renaming) by the pro tracker's per-player game logs. -/

structure LongRec where
  date : Nat
  opp : String
  player : String
  val : ℚ
deriving DecidableEq, Repr

/-- The stat values of the rows recorded for player `p`. -/
def playerVals (recs : List LongRec) (p : String) : List ℚ :=
  (recs.filter (fun r => r.player = p)).map (fun r => r.val)

/-- Mean of one player's group, `long_df.groupby("Player")[stat].mean()`
(`src/NCAAM.py` lines 325-348); `src/NBA.py` lines 153-156 computes the same
mean directly on the player's own game log. -/
def groupMean (recs : List LongRec) (p : String) : ℚ :=
  (playerVals recs p).sum / ((playerVals recs p).length : ℚ)

/-- Modelled from the spec's words for comparison: the arithmetic mean of the
stat over exactly the games in which `p` has a recorded long-format row. -/
def specRecordedMean (recs : List LongRec) (p : String) : ℚ :=
  (((recs.filter (fun r => r.player = p)).map (fun r => r.val)).sum) /
    (((recs.filter (fun r => r.player = p)).length : ℚ))

/-- Ordering of the exported season-average sheet:
`sort_values("Avg <stat>", ascending=False)`. -/
def avgLe (a b : String × ℚ) : Bool :=
  decide (b.2 ≤ a.2)

/-- The exported season-average table: one `(player, mean)` row per distinct
player, sorted descending by average (`src/NCAAM.py` lines 325-348). -/
def seasonAvgTable (recs : List LongRec) : List (String × ℚ) :=
  sortBy avgLe
    ((firstDedup (recs.map (fun r => r.player))).map
      (fun p => (p, groupMean recs p)))

/-- Embedding of `make_pivot` (`src/NCAAM.py` lines 304-317 and
`src/NCAAM/NCAAM.py` lines
209-222, identical up to the date column name): group the long records by
`(game date, opponent)`, one column per player, `aggfunc="sum"`, then
`reset_index().sort_values(date).fillna(0)`. A `(game, player)` combination
with no record is `NaN` before the `fillna(0)` and `0` after it, which
coincides with the sum over the empty list. -/
def makePivot (recs : List LongRec) : WideTable :=
  let players := firstDedup (recs.map (fun r => r.player))
  let keys := firstDedup (recs.map (fun r => (r.date, r.opp)))
  let rows := keys.map (fun k =>
    { date := k.1
      opp := k.2
      cells := players.map (fun p =>
        some (((recs.filter
          (fun r => r.player = p ∧ r.date = k.1 ∧ r.opp = k.2)).map
            (fun r => r.val)).sum)) : Row })
  { players := players, rows := sortBy rowDateLe rows }

/-- Embedding of `_sort_fill` (`src/NBA.py` lines 162-163):
`df.sort_values("Game Time (PST)").fillna(0)` applied to each combined wide
table before export. -/
def sortFill (df : WideTable) : WideTable :=
  { players := df.players
    rows := (sortBy rowDateLe df.rows).map
      (fun r => { r with cells := r.cells.map (fun c => some (c.getD 0)) }) }

/-- Mean of wide-table column `i` over all game rows, with missing cells as
the zeros the wide table fills them with. -/
def wideColMean (df : WideTable) (i : ℕ) : ℚ :=
  ((df.rows.map (fun r => (r.cells.getD i none).getD 0)).sum) /
    ((df.rows.length : ℚ))

/-! ## Dashboard workbook loading (`render_basketball_sport`,
`dashboard.py` lines 386-424)

A workbook maps sheet names to optional sheets; `pd.read_excel`
raises on a missing sheet, modelled by `Except`. -/

structure Sheet where
  cols : List String
  cellRows : List (List String)
deriving DecidableEq, Repr

structure LoadedSheets where
  points : Sheet
  assists : Sheet
  rebounds : Sheet
  threes : Sheet
  teamTotals : Sheet
  avgPoints : Sheet
  avgAssists : Sheet
  avgRebounds : Sheet
  avg3pm : Sheet
deriving DecidableEq, Repr

/-- An empty placeholder table with the given header columns. -/
def placeholderSheet (cols : List String) : Sheet :=
  { cols := cols, cellRows := [] }

/-- Reading with `pd.read_excel` outside a `try`: a missing sheet raises. -/
def readRequiredSheet (wb : String → Option Sheet) (name : String) :
    Except Unit Sheet :=
  match wb name with
  | some s => Except.ok s
  | none => Except.error ()

/-- The sheet-loading block of `render_basketball_sport` (`dashboard.py`
lines 386-424): `Points`, `Assists`, `Avg Points` and `Avg Assists` are read
without a `try`, the other five fall back to empty placeholder tables. -/
def loadDashboardSheets (wb : String → Option Sheet) :
    Except Unit LoadedSheets := do
  let points ← readRequiredSheet wb "Points"
  let assists ← readRequiredSheet wb "Assists"
  let rebounds := (wb "Rebounds").getD
    (placeholderSheet ["Game Time (PST)", "Opponent"])
  let threes := (wb "3PM").getD
    (placeholderSheet ["Game Time (PST)", "Opponent"])
  let teamTotals := (wb "Team Points").getD
    (placeholderSheet ["Game Time (PST)", "Opponent", "Team Points",
      "Opponent Points", "Game Total Points"])
  let avgPoints ← readRequiredSheet wb "Avg Points"
  let avgAssists ← readRequiredSheet wb "Avg Assists"
  let avgRebounds := (wb "Avg Rebounds").getD
    (placeholderSheet ["Player", "Avg Rebounds"])
  let avg3pm := (wb "Avg 3PM").getD (placeholderSheet ["Player", "Avg 3PM"])
  pure
    { points := points, assists := assists, rebounds := rebounds
      threes := threes, teamTotals := teamTotals, avgPoints := avgPoints
      avgAssists := avgAssists, avgRebounds := avgRebounds, avg3pm := avg3pm }

/-! ## Season-input parsing

The three parsers (`src/NBA.py` lines 30-55, `src/NCAAM.py` lines 41-97,
`src/NCAAM/NCAAM.py` lines 36-83) share the same text pipeline:
`strip().lower()`, the substitution removing the words season and the and
all whitespace, and
the leading match of two-to-four digits, an optional separator (a dash or
the word to) and an optional second two-to-four digit group. Inputs are lists
of characters; `datetime.now()` is passed in as the current year and month. -/

/-- ASCII `str.lower()` for one character. -/
def toLowerChar (c : Char) : Char :=
  if 65 ≤ c.toNat ∧ c.toNat ≤ 90 then Char.ofNat (c.toNat + 32) else c

def pyLower (l : List Char) : List Char :=
  l.map toLowerChar

/-- The characters `str.strip()` removes, which are also the matches of
the regex class written backslash-s. -/
def isPySpaceB (c : Char) : Bool :=
  c.toNat = 32 || c.toNat = 9 || c.toNat = 10 || c.toNat = 13 ||
    c.toNat = 11 || c.toNat = 12

/-- Python `str.strip()`. -/
def pyStrip (l : List Char) : List Char :=
  ((l.dropWhile isPySpaceB).reverse.dropWhile isPySpaceB).reverse

/-- One left-to-right pass of the noise substitution: at each position the
alternatives season, the, whitespace are tried in order (the order of the
regex alternation) and the first match is removed; scanning resumes after
the removed text. -/
def subNoiseAux : ℕ → List Char → List Char
  | _, [] => []
  | 0, l => l
  | fuel + 1, c :: rest =>
    if c = 's' ∧ rest.take 5 = ['e', 'a', 's', 'o', 'n'] then
      subNoiseAux fuel (rest.drop 5)
    else if c = 't' ∧ rest.take 2 = ['h', 'e'] then
      subNoiseAux fuel (rest.drop 2)
    else if isPySpaceB c then subNoiseAux fuel rest
    else c :: subNoiseAux fuel rest

/-- See the doc comment above: each removal or copy consumes at least one
character, so `l.length` steps of fuel always finish the scan. -/
def subNoise (l : List Char) : List Char :=
  subNoiseAux l.length l

/-- ASCII decimal digit test, the matches of the regex class backslash-d. -/
def isDigitCharB (c : Char) : Bool :=
  decide (48 ≤ c.toNat) && decide (c.toNat ≤ 57)

/-- Take up to `n` leading digits. -/
def takeDigitsAux : ℕ → List Char → List Char × List Char
  | _, [] => ([], [])
  | 0, l => ([], l)
  | n + 1, c :: l =>
    if isDigitCharB c then
      let p := takeDigitsAux n l
      (c :: p.1, p.2)
    else ([], c :: l)

/-- The optional separator `(?:-|to)?`, alternatives tried in order. -/
def sepSkip : List Char → List Char
  | '-' :: r => r
  | 't' :: 'o' :: r => r
  | r => r

/-- The season regex match: the first group takes up to four leading digits
and needs at least two; everything after it -- an optional separator and an
optional second group of two to four digits -- is optional, so no
backtracking into the first group can occur; the second group is `none`
when fewer than two digits follow the separator. -/
def matchSeason (s : List Char) : Option (List Char × Option (List Char)) :=
  let p1 := takeDigitsAux 4 s
  if p1.1.length < 2 then none
  else
    let p2 := takeDigitsAux 4 (sepSkip p1.2)
    some (p1.1, if p2.1.length < 2 then none else some p2.1)

/-- Python int conversion of a token of decimal digits. -/
def parseDigitsNat (l : List Char) : ℕ :=
  l.foldl (fun a c => 10 * a + (c.toNat - 48)) 0

/-- Python two-digit zero-padded formatting of a nonnegative int. -/
def pad2 (n : ℕ) : String :=
  if n < 10 then "0" ++ toString n else toString n

/-- Season label with a zero-padded end part, the matched branch of the pro
parser. -/
def mkLabelPad (a : ℤ) (n : ℕ) : String :=
  toString a ++ "-" ++ pad2 n

/-- Season label whose end part drops the century digits of the end year,
used by all other season labels. -/
def mkLabelDrop (a b : ℤ) : String :=
  toString a ++ "-" ++ (toString b).drop 2

/-- The default/fallback season of `src/NBA.py` lines 35-38 and 53-55:
the season starts in the current year when the month is at least August. -/
def defaultSeasonNBA (year : ℤ) (month : ℕ) : String :=
  let ys := if 8 ≤ month then year else year - 1
  mkLabelDrop ys (ys + 1)

/-- Embedding of `parse_season_input` of `src/NBA.py` lines 30-55. A
four-digit start
token keeps only its last two digits; two- and three-digit tokens are taken
whole; then start years below 50 live in the 2000s, the rest in the 1900s. -/
def parseSeasonNBA (input : List Char) (year : ℤ) (month : ℕ) : String :=
  let s := pyLower (pyStrip input)
  if s.isEmpty then defaultSeasonNBA year month
  else
    match matchSeason (subNoise s) with
    | some (g1, g2) =>
      let start : ℕ :=
        if g1.length = 4 then parseDigitsNat (g1.drop 2) else parseDigitsNat g1
      let startFull : ℤ :=
        if start < 50 then 2000 + (start : ℤ) else 1900 + (start : ℤ)
      let endN : ℕ :=
        match g2 with
        | some g =>
          if g.length = 4 then parseDigitsNat (g.drop 2) else parseDigitsNat g
        | none => (start + 1) % 100
      mkLabelPad startFull endN
    | none => defaultSeasonNBA year month

/-- Embedding of `to_year_start` / `to_year` of the two college parsers
(`src/NCAAM.py`
lines 71-76, `src/NCAAM/NCAAM.py` lines 62-66): a four-digit token is kept
whole, shorter tokens are expanded with the pivot at 50. -/
def toYearPivot (g : List Char) : ℤ :=
  if g.length = 4 then (parseDigitsNat g : ℤ)
  else if parseDigitsNat g < 50 then 2000 + (parseDigitsNat g : ℤ)
  else 1900 + (parseDigitsNat g : ℤ)

/-- Default/fallback season of `src/NCAAM.py` lines 57-63 and 91-97: the
season starts in the current year when the month is at least July. -/
def defaultSeasonCBBD (year : ℤ) (month : ℕ) : ℤ × String :=
  let s := if 7 ≤ month then year else year - 1
  (s, mkLabelDrop s (s + 1))

/-- Embedding of `parse_season_input` of `src/NCAAM.py` lines 41-97 (the
CBBD adapter):
returns `(season_int, label)`; a bare year is the season START year. -/
def parseSeasonCBBD (input : List Char) (year : ℤ) (month : ℕ) :
    ℤ × String :=
  let s := pyLower (pyStrip input)
  if s.isEmpty then defaultSeasonCBBD year month
  else
    match matchSeason (subNoise s) with
    | some (g1, g2) =>
      let startFull := toYearPivot g1
      let endFull : ℤ :=
        match g2 with
        | some g => toYearPivot g
        | none => startFull + 1
      (startFull, mkLabelDrop startFull endFull)
    | none => defaultSeasonCBBD year month

/-- Default/fallback season of `src/NCAAM/NCAAM.py` lines 48-53 and 78-82:
the season ENDS next year when the month is at least July. -/
def defaultSeasonScrape (year : ℤ) (month : ℕ) : String × String :=
  let ye := if 7 ≤ month then year + 1 else year
  (mkLabelDrop (ye - 1) ye, toString ye)

/-- Embedding of `parse_season_input` of `src/NCAAM/NCAAM.py` lines 36-83
(the
scrape-based adapter): returns `(label, sportsipy_year)`; a bare year is the
year the season ENDS. -/
def parseSeasonScrape (input : List Char) (year : ℤ) (month : ℕ) :
    String × String :=
  let s := pyLower (pyStrip input)
  if s.isEmpty then defaultSeasonScrape year month
  else
    match matchSeason (subNoise s) with
    | some (g1, g2) =>
      let yearEndFull : ℤ :=
        match g2 with
        | some g => toYearPivot g
        | none => toYearPivot g1
      (mkLabelDrop (yearEndFull - 1) yearEndFull, toString yearEndFull)
    | none => defaultSeasonScrape year month

/-! ## Concrete fixtures used by the claims -/

/-- One-player table whose points series, in date order, is
`[12, 14, 9, 16, 18, 20]`. -/
def ex1 : WideTable :=
  { players := ["P"]
    rows := [{ date := 0, opp := "", cells := [some 12] },
             { date := 1, opp := "", cells := [some 14] },
             { date := 2, opp := "", cells := [some 9] },
             { date := 3, opp := "", cells := [some 16] },
             { date := 4, opp := "", cells := [some 18] },
             { date := 5, opp := "", cells := [some 20] }] }

/-- One-player table with series `[11, 12, 13]`. -/
def ex2a : WideTable :=
  { players := ["P"]
    rows := [{ date := 0, opp := "", cells := [some 11] },
             { date := 1, opp := "", cells := [some 12] },
             { date := 2, opp := "", cells := [some 13] }] }

/-- One-player table with series `[11, 9, 13]`. -/
def ex2b : WideTable :=
  { players := ["P"]
    rows := [{ date := 0, opp := "", cells := [some 11] },
             { date := 1, opp := "", cells := [some 9] },
             { date := 2, opp := "", cells := [some 13] }] }

/-- One-player table that hits 10 in its first three games and has a
missing (`NaN`) cell in the fourth. -/
def tbl9 : WideTable :=
  { players := ["P"]
    rows := [{ date := 0, opp := "", cells := [some 10] },
             { date := 1, opp := "", cells := [some 10] },
             { date := 2, opp := "", cells := [some 10] },
             { date := 3, opp := "", cells := [none] }] }

/-- Long records: player `A` plays games 1 and 2 (values 10 and 20) and is
absent from game 3; player `B` plays all three games. -/
def recsEx3 : List LongRec :=
  [{ date := 1, opp := "X", player := "A", val := 10 },
   { date := 2, opp := "Y", player := "A", val := 20 },
   { date := 1, opp := "X", player := "B", val := 5 },
   { date := 2, opp := "Y", player := "B", val := 5 },
   { date := 3, opp := "Z", player := "B", val := 5 }]

/-- A workbook whose only missing sheet is `Points`. -/
def wbNoPoints : String → Option Sheet := fun n =>
  if n = "Points" then none else some (placeholderSheet ["c"])

/-- A workbook carrying exactly the four sheets read without a `try`. -/
def wbMinimal : String → Option Sheet := fun n =>
  if n = "Points" ∨ n = "Assists" ∨ n = "Avg Points" ∨ n = "Avg Assists"
  then some (placeholderSheet ["c"]) else none

/-! ## Theorems: generic machinery -/

theorem insertBy_perm {α : Type} (le : α → α → Bool) (a : α) (l : List α) :
    (insertBy le a l).Perm (a :: l) := by
  induction l with
  | nil => simp [insertBy]
  | cons b l ih =>
    by_cases h : le a b
    · simp [insertBy, h]
    · simp only [insertBy, h, if_false]
      exact (ih.cons b).trans (List.Perm.swap a b l)

theorem sortBy_perm {α : Type} (le : α → α → Bool) (l : List α) :
    (sortBy le l).Perm l := by
  induction l with
  | nil => simp [sortBy]
  | cons a l ih => exact (insertBy_perm le a (sortBy le l)).trans (ih.cons a)

theorem sortBy_length {α : Type} (le : α → α → Bool) (l : List α) :
    (sortBy le l).length = l.length :=
  (sortBy_perm le l).length_eq

theorem mem_sortBy {α : Type} (le : α → α → Bool) (l : List α) (x : α) :
    x ∈ sortBy le l ↔ x ∈ l :=
  (sortBy_perm le l).mem_iff

theorem insertBy_pairwise {α : Type} (le : α → α → Bool)
    (htrans : ∀ a b c, le a b = true → le b c = true → le a c = true)
    (htot : ∀ a b, le a b = true ∨ le b a = true)
    (a : α) (l : List α) (hl : l.Pairwise (fun x y => le x y = true)) :
    (insertBy le a l).Pairwise (fun x y => le x y = true) := by
  induction l with
  | nil => simp [insertBy]
  | cons b l ih =>
    rcases List.pairwise_cons.mp hl with ⟨hb, hl'⟩
    by_cases h : le a b
    · simp only [insertBy, h, if_true]
      refine List.pairwise_cons.mpr ⟨?_, hl⟩
      intro x hx
      rcases List.mem_cons.mp hx with rfl | hx
      · exact h
      · exact htrans a b x h (hb x hx)
    · simp only [insertBy, h, if_false]
      refine List.pairwise_cons.mpr ⟨?_, ih hl'⟩
      intro x hx
      rcases List.mem_cons.mp ((insertBy_perm le a l).mem_iff.mp hx) with hxa | hx
      · rw [hxa]
        rcases htot a b with h' | h'
        · exact absurd h' h
        · exact h'
      · exact hb x hx

theorem sortBy_pairwise {α : Type} (le : α → α → Bool)
    (htrans : ∀ a b c, le a b = true → le b c = true → le a c = true)
    (htot : ∀ a b, le a b = true ∨ le b a = true)
    (l : List α) :
    (sortBy le l).Pairwise (fun x y => le x y = true) := by
  induction l with
  | nil => simp [sortBy]
  | cons a l ih => exact insertBy_pairwise le htrans htot a (sortBy le l) ih

theorem mem_firstDedupAux {α : Type} [DecidableEq α] (x : α) :
    ∀ (l seen : List α), x ∈ firstDedupAux seen l ↔ x ∈ l ∧ x ∉ seen := by
  intro l
  induction l with
  | nil => intro seen; simp [firstDedupAux]
  | cons a l ih =>
    intro seen
    by_cases ha : a ∈ seen
    · simp only [firstDedupAux, ha, if_true, ih, List.mem_cons]
      constructor
      · rintro ⟨hx, hns⟩; exact ⟨Or.inr hx, hns⟩
      · rintro ⟨hx | hx, hns⟩
        · exact absurd (hx ▸ ha) hns
        · exact ⟨hx, hns⟩
    · simp only [firstDedupAux, ha, if_false, List.mem_cons, ih]
      by_cases hxa : x = a
      · subst hxa; simp [ha]
      · simp [hxa, List.mem_cons]

theorem mem_firstDedup {α : Type} [DecidableEq α] (x : α) (l : List α) :
    x ∈ firstDedup l ↔ x ∈ l := by
  simp [firstDedup, mem_firstDedupAux]

/-! ## Claim C4 (dashboard sheet loading) -/

/-- Claim C4, counterexample: the claim says every expected sheet falls back
to an empty placeholder table, but `Points` (like `Assists`, `Avg Points`
and `Avg Assists`) is read without a `try`, so a workbook missing only the
`Points` sheet makes the whole view fail instead of substituting a
placeholder. -/
theorem loadDashboardSheets_missing_points_fails :
    loadDashboardSheets wbNoPoints = Except.error () := rfl

/-- Claim C4, amended: if the four sheets read without a `try` (`Points`,
`Assists`, `Avg Points`, `Avg Assists`) are present, the view loads, and
each of the five guarded sheets (`Rebounds`, `3PM`, `Team Points`,
`Avg Rebounds`, `Avg 3PM`) is replaced by an empty placeholder table with
its canonical header columns when missing. -/
theorem loadDashboardSheets_optional_placeholders :
    ∀ wb : String → Option Sheet,
    (wb "Points").isSome = true → (wb "Assists").isSome = true →
    (wb "Avg Points").isSome = true → (wb "Avg Assists").isSome = true →
    ∃ l, loadDashboardSheets wb = Except.ok l ∧
      (wb "Rebounds" = none →
        l.rebounds = placeholderSheet ["Game Time (PST)", "Opponent"]) ∧
      (wb "3PM" = none →
        l.threes = placeholderSheet ["Game Time (PST)", "Opponent"]) ∧
      (wb "Team Points" = none →
        l.teamTotals = placeholderSheet ["Game Time (PST)", "Opponent",
          "Team Points", "Opponent Points", "Game Total Points"]) ∧
      (wb "Avg Rebounds" = none →
        l.avgRebounds = placeholderSheet ["Player", "Avg Rebounds"]) ∧
      (wb "Avg 3PM" = none →
        l.avg3pm = placeholderSheet ["Player", "Avg 3PM"]) := by
  intro wb h1 h2 h3 h4
  rcases Option.isSome_iff_exists.mp h1 with ⟨s1, hs1⟩
  rcases Option.isSome_iff_exists.mp h2 with ⟨s2, hs2⟩
  rcases Option.isSome_iff_exists.mp h3 with ⟨s3, hs3⟩
  rcases Option.isSome_iff_exists.mp h4 with ⟨s4, hs4⟩
  have hload : loadDashboardSheets wb = Except.ok
      { points := s1, assists := s2
        rebounds := (wb "Rebounds").getD
          (placeholderSheet ["Game Time (PST)", "Opponent"])
        threes := (wb "3PM").getD
          (placeholderSheet ["Game Time (PST)", "Opponent"])
        teamTotals := (wb "Team Points").getD
          (placeholderSheet ["Game Time (PST)", "Opponent", "Team Points",
            "Opponent Points", "Game Total Points"])
        avgPoints := s3, avgAssists := s4
        avgRebounds := (wb "Avg Rebounds").getD
          (placeholderSheet ["Player", "Avg Rebounds"])
        avg3pm := (wb "Avg 3PM").getD
          (placeholderSheet ["Player", "Avg 3PM"]) } := by
    simp [loadDashboardSheets, readRequiredSheet, hs1, hs2, hs3, hs4,
      Bind.bind, Except.bind, Pure.pure, Except.pure]
  refine ⟨_, hload, ?_, ?_, ?_, ?_, ?_⟩
  all_goals intro h
  all_goals simp [h]

theorem loadDashboardSheets_optional_placeholders_witness :
    ∃ l, loadDashboardSheets wbMinimal = Except.ok l ∧
      (wbMinimal "Rebounds" = none →
        l.rebounds = placeholderSheet ["Game Time (PST)", "Opponent"]) ∧
      (wbMinimal "3PM" = none →
        l.threes = placeholderSheet ["Game Time (PST)", "Opponent"]) ∧
      (wbMinimal "Team Points" = none →
        l.teamTotals = placeholderSheet ["Game Time (PST)", "Opponent",
          "Team Points", "Opponent Points", "Game Total Points"]) ∧
      (wbMinimal "Avg Rebounds" = none →
        l.avgRebounds = placeholderSheet ["Player", "Avg Rebounds"]) ∧
      (wbMinimal "Avg 3PM" = none →
        l.avg3pm = placeholderSheet ["Player", "Avg 3PM"]) :=
  loadDashboardSheets_optional_placeholders wbMinimal (by decide) (by decide)
    (by decide) (by decide)

/-! ## Claim C5 (the two college parsers disagree on a bare year) -/

/-- Claim C5: on the bare-year inputs `"2025"` and `"25"` the CBBD-based
parser returns season integer 2025 with label `2025-26` (season-start
convention), while the scrape-based parser returns label `2024-25` with
sportsipy year `"2025"` (season-end convention); in particular their labels
differ on the same input, whatever today's date is. -/
theorem collegeParsers_bare_year_disagree :
    ∀ (y : ℤ) (m : ℕ),
      parseSeasonCBBD ("2025".toList) y m = (2025, "2025-26") ∧
      parseSeasonScrape ("2025".toList) y m = ("2024-25", "2025") ∧
      parseSeasonCBBD ("25".toList) y m = (2025, "2025-26") ∧
      parseSeasonScrape ("25".toList) y m = ("2024-25", "2025") ∧
      decide ((parseSeasonCBBD ("2025".toList) y m).2 =
        (parseSeasonScrape ("2025".toList) y m).1) = false := by
  intro y m
  have h1 : parseSeasonCBBD ("2025".toList) y m = (2025, "2025-26") := rfl
  have h2 : parseSeasonScrape ("2025".toList) y m = ("2024-25", "2025") := rfl
  refine ⟨h1, h2, rfl, rfl, ?_⟩
  rw [h1, h2]
  decide

/-! ## Claim C6 (empty input tables) -/

/-- Claim C6: on a table with zero rows, `compute_trends` and
`compute_perfects` both return the empty result table with their canonical
result columns (and, being total functions, raise nothing). -/
theorem computeTrends_perfects_empty_table :
    ∀ (players : List String) (ts : List ℤ) (lbl team : String),
      computeTrends { players := players, rows := [] } ts lbl =
        { columns := trendCols, records := [] } ∧
      computePerfects { players := players, rows := [] } ts lbl team =
        { columns := perfectCols, records := [] } := by
  intro players ts lbl team
  constructor
  · simp [computeTrends]
  · simp [computePerfects]

/-! ## Claim C8 (wide tables are date-sorted) -/

theorem rowDateLe_trans :
    ∀ a b c : Row, rowDateLe a b = true → rowDateLe b c = true →
      rowDateLe a c = true := by
  intro a b c hab hbc
  simp only [rowDateLe, decide_eq_true_eq] at *
  omega

theorem rowDateLe_total :
    ∀ a b : Row, rowDateLe a b = true ∨ rowDateLe b a = true := by
  intro a b
  simp only [rowDateLe, decide_eq_true_eq]
  omega

theorem sortBy_rowDateLe_sorted (l : List Row) :
    (sortBy rowDateLe l).Pairwise (fun r s => r.date ≤ s.date) :=
  (sortBy_pairwise rowDateLe rowDateLe_trans rowDateLe_total l).imp
    (fun h => of_decide_eq_true h)

/-- Claim C8: every wide stat table produced by the aggregation engine —
`_sort_fill` applied to the pro tracker's combined tables, and `make_pivot`
of either college tracker — has its rows in non-decreasing order of the
game-date column. -/
theorem wideTables_sorted_by_date :
    (∀ df : WideTable,
      (sortFill df).rows.Pairwise (fun r s => r.date ≤ s.date)) ∧
    (∀ recs : List LongRec,
      (makePivot recs).rows.Pairwise (fun r s => r.date ≤ s.date)) := by
  constructor
  · intro df
    simp only [sortFill]
    rw [List.pairwise_map]
    exact sortBy_rowDateLe_sorted df.rows
  · intro recs
    simp only [makePivot]
    exact sortBy_rowDateLe_sorted _

/-! ## Claim C9 (missing cells: fill versus drop) -/

theorem length_filterMap_eq_countP {α β : Type} (f : α → Option β)
    (l : List α) :
    (l.filterMap f).length = l.countP (fun a => (f a).isSome) := by
  induction l with
  | nil => rfl
  | cons a l ih =>
    simp only [List.filterMap_cons, List.countP_cons]
    cases h : f a
    · simp [h, ih]
    · simp [h, ih]

/-- Claim C9: `compute_trends` fills a missing cell with 0, so its series is
as long as the table has rows and a missing game resets any streak at
thresholds of at least 1, while `compute_perfects` drops missing cells, so
its series only counts games whose cell is present; on `tbl9` (three hits
then a missing cell) the same player is a retained perfect with 100% while
the trends output for the same threshold retains them with 75% < 100%. -/
theorem trends_perfects_missing_cell_divergence :
    (∀ (df : WideTable) (i : ℕ),
      (trendsSeries (sortBy rowDateLe df.rows) i).length = df.rows.length) ∧
    (∀ (df : WideTable) (i : ℕ),
      (perfectsSeries (sortBy rowDateLe df.rows) i).length =
        df.rows.countP (fun r => (r.cells.getD i none).isSome)) ∧
    (∀ t : ℚ, 1 ≤ t → ∀ (acc : ℕ × ℕ) (l1 : List ℚ),
      (List.foldl (streakFold t) acc (l1 ++ [0])).1 = 0) ∧
    computeTrends tbl9 [10] "Points" =
      ⟨trendCols, [⟨"P", "10+ Points", 10, 3, 3, 4, 75⟩]⟩ ∧
    computePerfects tbl9 [10] "Points" "T" =
      ⟨perfectCols, [⟨"P", "T", "10+ Points", 10, 3, 100⟩]⟩ ∧
    (75 : ℚ) < 100 := by
  refine ⟨?_, ?_, ?_, ?_, ?_, by norm_num⟩
  · intro df i
    rw [trendsSeries, List.length_map, sortBy_length]
  · intro df i
    rw [perfectsSeries, length_filterMap_eq_countP]
    exact List.Perm.countP_eq _ (sortBy_perm rowDateLe df.rows)
  · intro t ht acc l1
    have h0 : ¬ t ≤ (0 : ℚ) := by linarith
    rw [List.foldl_append]
    simp [streakFold, h0]
  · have h : computeTrends tbl9 [10] "Points" =
        ⟨trendCols, [⟨"P", "10+ Points", 10, 3, 3, 4, ((3 : ℚ) / 4) * 100⟩]⟩ := by
      rfl
    rw [h]
    norm_num
  · have h : computePerfects tbl9 [10] "Points" "T" =
        ⟨perfectCols, [⟨"P", "T", "10+ Points", 10, 3, ((3 : ℚ) / 3) * 100⟩]⟩ := by
      rfl
    rw [h]
    norm_num

theorem trends_perfects_missing_cell_divergence_witness :
    (List.foldl (streakFold 1) ((0, 0) : ℕ × ℕ) ([] ++ [(0 : ℚ)])).1 = 0 :=
  trends_perfects_missing_cell_divergence.2.2.1 1 (by norm_num) (0, 0) []

/-! ## Claim C1 (the forward streak pass computes the longest run) -/

/-- Invariant of the forward pass: the first state component is the length
of the maximal all-hit suffix scanned so far, the second the length of the
maximal contiguous all-hit run scanned so far (both as a bound and as an
achieved value). -/
theorem streak_invariant (t : ℚ) (l : List ℚ) :
    (∀ l0 s, l = l0 ++ s → (∀ v ∈ s, t ≤ v) →
      s.length ≤ (streakPair t l).1) ∧
    (∃ l0 s, l = l0 ++ s ∧ (∀ v ∈ s, t ≤ v) ∧
      s.length = (streakPair t l).1) ∧
    (∀ l1 run l2, l = l1 ++ run ++ l2 → (∀ v ∈ run, t ≤ v) →
      run.length ≤ (streakPair t l).2) ∧
    (∃ l1 run l2, l = l1 ++ run ++ l2 ∧ (∀ v ∈ run, t ≤ v) ∧
      run.length = (streakPair t l).2) := by
  induction l using List.reverseRecOn with
  | nil =>
    refine ⟨?_, ⟨[], [], rfl, by simp, rfl⟩, ?_,
      ⟨[], [], [], rfl, by simp, rfl⟩⟩
    · intro l0 s hs _
      obtain ⟨-, rfl⟩ := List.append_eq_nil.mp hs.symm
      simp [streakPair]
    · intro l1 run l2 hr _
      have : run = [] := by
        rcases List.append_eq_nil.mp hr.symm with ⟨h1, -⟩
        exact (List.append_eq_nil.mp h1).2
      simp [this, streakPair]
  | append_singleton l x ih =>
    obtain ⟨ha, ⟨l0, s, hs, hhit, hlen⟩, hc, ⟨l1, run, l2, hr, hrhit, hrlen⟩⟩ :=
      ih
    have hfold : streakPair t (l ++ [x]) = streakFold t (streakPair t l) x := by
      simp [streakPair, List.foldl_append]
    by_cases hx : t ≤ x
    · have hcur : (streakPair t (l ++ [x])).1 = (streakPair t l).1 + 1 := by
        rw [hfold]; simp [streakFold, hx]
      have hlong : (streakPair t (l ++ [x])).2 =
          max (streakPair t l).2 ((streakPair t l).1 + 1) := by
        rw [hfold]; simp [streakFold, hx]
      have hA : ∀ l0' s', l ++ [x] = l0' ++ s' → (∀ v ∈ s', t ≤ v) →
          s'.length ≤ (streakPair t (l ++ [x])).1 := by
        intro l0' s' heq hhit'
        rw [hcur]
        rcases List.eq_nil_or_concat s' with rfl | ⟨s'', b, rfl⟩
        · simp
        · rw [List.concat_eq_append, ← List.append_assoc] at heq
          obtain ⟨hl, hxb⟩ := List.append_inj' heq rfl
          have hs'' : ∀ v ∈ s'', t ≤ v := fun v hv =>
            hhit' v (by simp [List.concat_eq_append, hv])
          have hb := ha l0' s'' hl hs''
          simp only [List.concat_eq_append, List.length_append,
            List.length_cons, List.length_nil]
          omega
      have hB : ∃ l0' s', l ++ [x] = l0' ++ s' ∧ (∀ v ∈ s', t ≤ v) ∧
          s'.length = (streakPair t (l ++ [x])).1 := by
        refine ⟨l0, s ++ [x], ?_, ?_, ?_⟩
        · rw [hs, List.append_assoc]
        · intro v hv
          rcases List.mem_append.mp hv with hv | hv
          · exact hhit v hv
          · simp only [List.mem_singleton] at hv
            rw [hv]; exact hx
        · rw [hcur]; simp [hlen]
      have hC : ∀ l1' run' l2', l ++ [x] = l1' ++ run' ++ l2' →
          (∀ v ∈ run', t ≤ v) →
          run'.length ≤ (streakPair t (l ++ [x])).2 := by
        intro l1' run' l2' heq hhit'
        rcases List.eq_nil_or_concat l2' with rfl | ⟨l2'', b, rfl⟩
        · rw [List.append_nil] at heq
          have hb := hA l1' run' heq hhit'
          rw [hcur] at hb
          rw [hlong]
          omega
        · rw [List.concat_eq_append] at heq
          rw [show l1' ++ run' ++ (l2'' ++ [b]) =
            (l1' ++ run' ++ l2'') ++ [b] by simp [List.append_assoc]] at heq
          obtain ⟨hl, -⟩ := List.append_inj' heq rfl
          have hb := hc l1' run' l2'' hl hhit'
          rw [hlong]
          omega
      have hD : ∃ l1' run' l2', l ++ [x] = l1' ++ run' ++ l2' ∧
          (∀ v ∈ run', t ≤ v) ∧
          run'.length = (streakPair t (l ++ [x])).2 := by
        rcases le_or_lt ((streakPair t l).1 + 1) (streakPair t l).2 with hm | hm
        · refine ⟨l1, run, l2 ++ [x], ?_, hrhit, ?_⟩
          · rw [hr]; simp [List.append_assoc]
          · rw [hlong, hrlen, max_eq_left hm]
        · refine ⟨l0, s ++ [x], [], ?_, ?_, ?_⟩
          · rw [hs]; simp [List.append_assoc]
          · intro v hv
            rcases List.mem_append.mp hv with hv | hv
            · exact hhit v hv
            · simp only [List.mem_singleton] at hv
              rw [hv]; exact hx
          · rw [hlong, max_eq_right (le_of_lt hm)]
            simp [hlen]
      exact ⟨hA, hB, hC, hD⟩
    · have hcur : (streakPair t (l ++ [x])).1 = 0 := by
        rw [hfold]; simp [streakFold, hx]
      have hlong : (streakPair t (l ++ [x])).2 = (streakPair t l).2 := by
        rw [hfold]; simp [streakFold, hx]
      have hA : ∀ l0' s', l ++ [x] = l0' ++ s' → (∀ v ∈ s', t ≤ v) →
          s'.length ≤ (streakPair t (l ++ [x])).1 := by
        intro l0' s' heq hhit'
        rcases List.eq_nil_or_concat s' with rfl | ⟨s'', b, rfl⟩
        · simp
        · rw [List.concat_eq_append, ← List.append_assoc] at heq
          obtain ⟨-, hxb⟩ := List.append_inj' heq rfl
          have hxb' : x = b := by simpa using hxb
          exact absurd (hxb' ▸ hhit' b (by simp [List.concat_eq_append])) hx
      have hC : ∀ l1' run' l2', l ++ [x] = l1' ++ run' ++ l2' →
          (∀ v ∈ run', t ≤ v) →
          run'.length ≤ (streakPair t (l ++ [x])).2 := by
        intro l1' run' l2' heq hhit'
        rw [hlong]
        rcases List.eq_nil_or_concat l2' with rfl | ⟨l2'', b, rfl⟩
        · rw [List.append_nil] at heq
          rcases List.eq_nil_or_concat run' with rfl | ⟨run'', b, rfl⟩
          · simp
          · rw [List.concat_eq_append, ← List.append_assoc] at heq
            obtain ⟨-, hxb⟩ := List.append_inj' heq rfl
            have hxb' : x = b := by simpa using hxb
            exact absurd (hxb' ▸ hhit' b (by simp [List.concat_eq_append])) hx
        · rw [List.concat_eq_append] at heq
          rw [show l1' ++ run' ++ (l2'' ++ [b]) =
            (l1' ++ run' ++ l2'') ++ [b] by simp [List.append_assoc]] at heq
          obtain ⟨hl, -⟩ := List.append_inj' heq rfl
          exact hc l1' run' l2'' hl hhit'
      refine ⟨hA, ⟨l ++ [x], [], by simp, by simp, by simp [hcur]⟩, hC,
        ⟨l1, run, l2 ++ [x], ?_, hrhit, ?_⟩⟩
      · rw [hr]; simp [List.append_assoc]
      · rw [hlong, hrlen]

/-- Claim C1: the forward pass of `compute_trends` over a player's
date-sorted series reports as `longest_streak` exactly the length of the
longest contiguous all-hit run (the maximum value of the running
consecutive-hit counter); and on the series `[12, 14, 9, 16, 18, 20]` with
threshold 10 it yields `longest_streak` 3, `total_games_hit` 5,
`total_games` 6 and `hit_percentage` 500/6, the entry being retained since
the streak reaches 3. -/
theorem computeTrends_longestStreak_correct :
    (∀ (df : WideTable) (i : ℕ) (t : ℚ),
      (∃ l1 run l2,
        trendsSeries (sortBy rowDateLe df.rows) i = l1 ++ run ++ l2 ∧
        (∀ v ∈ run, t ≤ v) ∧
        run.length =
          longestStreak t (trendsSeries (sortBy rowDateLe df.rows) i)) ∧
      (∀ l1 run l2,
        trendsSeries (sortBy rowDateLe df.rows) i = l1 ++ run ++ l2 →
        (∀ v ∈ run, t ≤ v) →
        run.length ≤
          longestStreak t (trendsSeries (sortBy rowDateLe df.rows) i))) ∧
    computeTrends ex1 [10] "Points" =
      ⟨trendCols, [⟨"P", "10+ Points", 10, 5, 3, 6, 500 / 6⟩]⟩ := by
  constructor
  · intro df i t
    obtain ⟨-, -, hC, hD⟩ :=
      streak_invariant t (trendsSeries (sortBy rowDateLe df.rows) i)
    exact ⟨hD, hC⟩
  · have h : computeTrends ex1 [10] "Points" =
        ⟨trendCols, [⟨"P", "10+ Points", 10, 5, 3, 6, ((5 : ℚ) / 6) * 100⟩]⟩ := by
      rfl
    rw [h]
    norm_num

theorem computeTrends_longestStreak_correct_witness :
    ([16, 18, 20] : List ℚ).length ≤
      longestStreak 10 (trendsSeries (sortBy rowDateLe ex1.rows) 0) :=
  (computeTrends_longestStreak_correct.1 ex1 0 10).2 [12, 14, 9] [16, 18, 20]
    [] (by decide) (by decide)

/-! ## Claim C2 (perfect props retained exactly for all-hit players) -/

theorem perfectRecords_rows_nil (df : WideTable) (ts : List ℤ)
    (lbl team : String) (h : df.rows = []) :
    perfectRecords df ts lbl team = [] := by
  simp [perfectRecords, h, sortBy, perfectsSeries]

theorem computePerfects_records_perm (df : WideTable) (ts : List ℤ)
    (lbl team : String) :
    (computePerfects df ts lbl team).records.Perm
      (perfectRecords df ts lbl team) := by
  rw [computePerfects]
  by_cases h : df.rows.isEmpty
  · rw [if_pos h, perfectRecords_rows_nil df ts lbl team (List.isEmpty_iff.mp h)]
  · rw [if_neg h]
    by_cases h2 : (perfectRecords df ts lbl team).isEmpty
    · rw [if_pos h2, List.isEmpty_iff.mp h2]
    · rw [if_neg h2]
      exact sortBy_perm perfectLe _

theorem mem_perfectRecords (df : WideTable) (ts : List ℤ)
    (lbl team : String) (e : PerfectEntry) :
    e ∈ perfectRecords df ts lbl team ↔
      ∃ j, j < df.players.length ∧ ∃ t ∈ ts,
        ((perfectsSeries (sortBy rowDateLe df.rows) j).countP
            (fun v => decide ((t : ℚ) ≤ v)) =
          (perfectsSeries (sortBy rowDateLe df.rows) j).length ∧
         0 < (perfectsSeries (sortBy rowDateLe df.rows) j).length) ∧
        e = ⟨df.players.getD j "", team, toString t ++ "+ " ++ lbl, t,
          (perfectsSeries (sortBy rowDateLe df.rows) j).length,
          (((perfectsSeries (sortBy rowDateLe df.rows) j).countP
              (fun v => decide ((t : ℚ) ≤ v)) : ℚ) /
            ((perfectsSeries (sortBy rowDateLe df.rows) j).length : ℚ)) * 100⟩ := by
  simp only [perfectRecords, List.mem_flatMap, List.mem_range]
  constructor
  · rintro ⟨j, hj, hin⟩
    refine ⟨j, hj, ?_⟩
    by_cases hz : (perfectsSeries (sortBy rowDateLe df.rows) j).length = 0
    · rw [if_pos hz] at hin
      exact absurd hin (List.not_mem_nil e)
    · rw [if_neg hz] at hin
      simp only [List.mem_filterMap] at hin
      obtain ⟨t, ht, hsome⟩ := hin
      by_cases hcond :
          (perfectsSeries (sortBy rowDateLe df.rows) j).countP
              (fun v => decide ((t : ℚ) ≤ v)) =
            (perfectsSeries (sortBy rowDateLe df.rows) j).length ∧
          0 < (perfectsSeries (sortBy rowDateLe df.rows) j).length
      · rw [if_pos hcond] at hsome
        exact ⟨t, ht, hcond, (Option.some_inj.mp hsome).symm⟩
      · rw [if_neg hcond] at hsome
        exact absurd hsome (by simp)
  · rintro ⟨j, hj, t, ht, hcond, rfl⟩
    refine ⟨j, hj, ?_⟩
    rw [if_neg (by omega)]
    simp only [List.mem_filterMap]
    exact ⟨t, ht, by rw [if_pos hcond]⟩

/-- Claim C2: `compute_perfects` emits an entry for a `(player, threshold)`
pair exactly when the player's count of games meeting the threshold equals
their count of played (non-missing) games, that count being positive; every
emitted entry has a hit percentage of 100; the one-player series
`[11, 12, 13]` at threshold 10 is retained with 100%, while `[11, 9, 13]`
at threshold 10 is not retained. -/
theorem computePerfects_iff_allHit :
    (∀ (df : WideTable) (ts : List ℤ) (lbl team : String) (i : ℕ) (t : ℤ),
      df.players.Nodup → i < df.players.length → t ∈ ts →
      ((∃ e ∈ (computePerfects df ts lbl team).records,
          e.player = df.players.getD i "" ∧ e.threshold = t) ↔
        ((perfectsSeries (sortBy rowDateLe df.rows) i).countP
            (fun v => decide ((t : ℚ) ≤ v)) =
          (perfectsSeries (sortBy rowDateLe df.rows) i).length ∧
         0 < (perfectsSeries (sortBy rowDateLe df.rows) i).length))) ∧
    (∀ (df : WideTable) (ts : List ℤ) (lbl team : String),
      ∀ e ∈ (computePerfects df ts lbl team).records, e.hitPct = 100) ∧
    computePerfects ex2a [10] "Points" "T" =
      ⟨perfectCols, [⟨"P", "T", "10+ Points", 10, 3, 100⟩]⟩ ∧
    computePerfects ex2b [10] "Points" "T" = ⟨perfectCols, []⟩ := by
  refine ⟨?_, ?_, ?_, by decide⟩
  · intro df ts lbl team i t hnodup hi ht
    constructor
    · rintro ⟨e, he, hplayer, hthr⟩
      have he' := (mem_perfectRecords df ts lbl team e).mp
        ((computePerfects_records_perm df ts lbl team).mem_iff.mp he)
      obtain ⟨j, hj, t', ht', hcond, rfl⟩ := he'
      have htt : t' = t := hthr
      have hji : j = i := by
        have hplayer' : df.players.getD j "" = df.players.getD i "" := hplayer
        rw [List.getD_eq_getElem df.players "" hj,
          List.getD_eq_getElem df.players "" hi] at hplayer'
        exact (List.Nodup.getElem_inj_iff hnodup).mp hplayer'
      rw [← htt, ← hji]
      exact hcond
    · intro hcond
      refine ⟨⟨df.players.getD i "", team, toString t ++ "+ " ++ lbl, t,
        (perfectsSeries (sortBy rowDateLe df.rows) i).length,
        (((perfectsSeries (sortBy rowDateLe df.rows) i).countP
            (fun v => decide ((t : ℚ) ≤ v)) : ℚ) /
          ((perfectsSeries (sortBy rowDateLe df.rows) i).length : ℚ)) * 100⟩,
        ?_, rfl, rfl⟩
      exact (computePerfects_records_perm df ts lbl team).mem_iff.mpr
        ((mem_perfectRecords df ts lbl team _).mpr ⟨i, hi, t, ht, hcond, rfl⟩)
  · intro df ts lbl team e he
    have he' := (mem_perfectRecords df ts lbl team e).mp
      ((computePerfects_records_perm df ts lbl team).mem_iff.mp he)
    obtain ⟨j, hj, t, ht, ⟨hcnt, hpos⟩, rfl⟩ := he'
    show (((perfectsSeries (sortBy rowDateLe df.rows) j).countP
        (fun v => decide ((t : ℚ) ≤ v)) : ℚ) /
      ((perfectsSeries (sortBy rowDateLe df.rows) j).length : ℚ)) * 100 = 100
    rw [hcnt, div_self (by positivity), one_mul]
  · have h : computePerfects ex2a [10] "Points" "T" =
        ⟨perfectCols, [⟨"P", "T", "10+ Points", 10, 3, ((3 : ℚ) / 3) * 100⟩]⟩ := by
      rfl
    rw [h]
    norm_num

theorem computePerfects_iff_allHit_witness :
    ∃ e ∈ (computePerfects ex2a [10] "Points" "T").records,
      e.player = ex2a.players.getD 0 "" ∧ e.threshold = 10 :=
  (computePerfects_iff_allHit.1 ex2a [10] "Points" "T" 0 10 (by decide)
    (by decide) (by decide)).mpr (by decide)

/-! ## Claim C3 (season averages ignore absent games) -/

/-- Claim C3: the exported season average of a player equals the arithmetic
mean over exactly the games in which the player has a recorded long-format
row; records of other players (in particular games the player is absent
from) contribute nothing to it, even though `make_pivot` zero-fills those
games in the wide table: on `recsEx3`, player `A` averages 15 over their two
recorded games while the zero-filled wide column of `A` averages 10. -/
theorem seasonAverage_recorded_games_only :
    (∀ (recs : List LongRec) (p : String),
      groupMean recs p = specRecordedMean recs p ∧
      (∀ extra : List LongRec, (∀ r ∈ extra, r.player ≠ p) →
        groupMean (recs ++ extra) p = groupMean recs p) ∧
      (p ∈ recs.map (fun r => r.player) →
        (p, groupMean recs p) ∈ seasonAvgTable recs)) ∧
    groupMean recsEx3 "A" = 15 ∧
    wideColMean (makePivot recsEx3) 0 = 10 ∧
    groupMean recsEx3 "A" ≠ wideColMean (makePivot recsEx3) 0 := by
  have hA : groupMean recsEx3 "A" = 15 := by
    have h : groupMean recsEx3 "A" =
        (([10, 20] : List ℚ).sum) / (((2 : ℕ)) : ℚ) := rfl
    rw [h]
    norm_num
  have hW : wideColMean (makePivot recsEx3) 0 = 10 := by
    have h : wideColMean (makePivot recsEx3) 0 =
        (([([10] : List ℚ).sum, ([20] : List ℚ).sum,
          ([] : List ℚ).sum] : List ℚ).sum) / (((3 : ℕ)) : ℚ) := rfl
    rw [h]
    norm_num
  refine ⟨?_, hA, hW, ?_⟩
  · intro recs p
    refine ⟨?_, ?_, ?_⟩
    · simp [groupMean, specRecordedMean, playerVals]
    · intro extra hextra
      have hnil : extra.filter (fun r => r.player = p) = [] :=
        List.filter_eq_nil_iff.mpr (fun r hr => by simp [hextra r hr])
      have hfil : (recs ++ extra).filter (fun r => r.player = p) =
          recs.filter (fun r => r.player = p) := by
        rw [List.filter_append, hnil, List.append_nil]
      simp [groupMean, playerVals, hfil]
    · intro hp
      have hp' : p ∈ firstDedup (recs.map (fun r => r.player)) :=
        (mem_firstDedup _ _).mpr hp
      exact (mem_sortBy avgLe _ _).mpr (List.mem_map.mpr ⟨p, hp', rfl⟩)
  · rw [hA, hW]
    norm_num

theorem seasonAverage_recorded_games_only_witness :
    groupMean (recsEx3 ++ [{ date := 3, opp := "Z", player := "B", val := 9 }])
      "A" = groupMean recsEx3 "A" :=
  ((seasonAverage_recorded_games_only.1 recsEx3 "A").2.1
    [{ date := 3, opp := "Z", player := "B", val := 9 }] (by decide))

/-! ## Claim C7 (parsers are total and fall back to the default season) -/

/-- Claim C7: every season parser is a total function (nothing raises), and
on any input whose cleaned text has no leading 2-4 digit token each parser
returns exactly what it returns for empty input; the empty-input default is
inferred from the current month against the cutoff, August for the pro
parser and July for both college parsers. -/
theorem seasonParsers_fallback_default :
    ∀ (input : List Char) (y : ℤ) (m : ℕ),
      (matchSeason (subNoise (pyLower (pyStrip input))) = none →
        parseSeasonNBA input y m = parseSeasonNBA [] y m ∧
        parseSeasonCBBD input y m = parseSeasonCBBD [] y m ∧
        parseSeasonScrape input y m = parseSeasonScrape [] y m) ∧
      (8 ≤ m → parseSeasonNBA [] y m = mkLabelDrop y (y + 1)) ∧
      (m < 8 → parseSeasonNBA [] y m = mkLabelDrop (y - 1) y) ∧
      (7 ≤ m → parseSeasonCBBD [] y m = (y, mkLabelDrop y (y + 1))) ∧
      (m < 7 → parseSeasonCBBD [] y m = (y - 1, mkLabelDrop (y - 1) y)) ∧
      (7 ≤ m →
        parseSeasonScrape [] y m = (mkLabelDrop y (y + 1), toString (y + 1))) ∧
      (m < 7 →
        parseSeasonScrape [] y m = (mkLabelDrop (y - 1) y, toString y)) := by
  intro input y m
  have hNBA0 : parseSeasonNBA [] y m = defaultSeasonNBA y m := rfl
  have hCB0 : parseSeasonCBBD [] y m = defaultSeasonCBBD y m := rfl
  have hSc0 : parseSeasonScrape [] y m = defaultSeasonScrape y m := rfl
  refine ⟨?_, ?_, ?_, ?_, ?_, ?_, ?_⟩
  · intro hm
    refine ⟨?_, ?_, ?_⟩
    · rw [hNBA0]
      simp only [parseSeasonNBA]
      by_cases hs : (pyLower (pyStrip input)).isEmpty
      · rw [if_pos hs]
      · rw [if_neg hs, hm]
    · rw [hCB0]
      simp only [parseSeasonCBBD]
      by_cases hs : (pyLower (pyStrip input)).isEmpty
      · rw [if_pos hs]
      · rw [if_neg hs, hm]
    · rw [hSc0]
      simp only [parseSeasonScrape]
      by_cases hs : (pyLower (pyStrip input)).isEmpty
      · rw [if_pos hs]
      · rw [if_neg hs, hm]
  · intro h8
    rw [hNBA0]
    simp only [defaultSeasonNBA]
    rw [if_pos h8]
  · intro h8
    rw [hNBA0]
    simp only [defaultSeasonNBA]
    rw [if_neg (by omega)]
    norm_num
  · intro h7
    rw [hCB0]
    simp only [defaultSeasonCBBD]
    rw [if_pos h7]
  · intro h7
    rw [hCB0]
    simp only [defaultSeasonCBBD]
    rw [if_neg (by omega)]
    norm_num
  · intro h7
    rw [hSc0]
    simp only [defaultSeasonScrape]
    rw [if_pos h7]
    norm_num
  · intro h7
    rw [hSc0]
    simp only [defaultSeasonScrape]
    rw [if_neg (by omega)]

theorem seasonParsers_fallback_default_witness :
    parseSeasonNBA ("n/a".toList) 2025 3 = parseSeasonNBA [] 2025 3 ∧
    parseSeasonCBBD ("n/a".toList) 2025 3 = parseSeasonCBBD [] 2025 3 ∧
    parseSeasonScrape ("n/a".toList) 2025 3 = parseSeasonScrape [] 2025 3 ∧
    parseSeasonNBA [] 2025 9 = mkLabelDrop 2025 2026 :=
  ⟨((seasonParsers_fallback_default ("n/a".toList) 2025 3).1 (by decide)).1,
   ((seasonParsers_fallback_default ("n/a".toList) 2025 3).1 (by decide)).2.1,
   ((seasonParsers_fallback_default ("n/a".toList) 2025 3).1 (by decide)).2.2,
   (seasonParsers_fallback_default [] 2025 9).2.1 (by norm_num)⟩

/-! ## Claim C10 (four-digit years are truncated and re-expanded) -/

theorem toLowerChar_digit (c : Char) (h : c.toNat ≤ 57) : toLowerChar c = c := by
  simp only [toLowerChar]
  rw [if_neg (by omega)]

theorem isPySpaceB_digit (c : Char) (h : 48 ≤ c.toNat) : isPySpaceB c = false := by
  simp only [isPySpaceB, Bool.or_eq_false_iff, decide_eq_false_iff_not]
  omega

theorem isDigitCharB_digit (c : Char) (h1 : 48 ≤ c.toNat) (h2 : c.toNat ≤ 57) :
    isDigitCharB c = true := by
  simp only [isDigitCharB, Bool.and_eq_true, decide_eq_true_eq]
  omega

theorem subNoiseAux_digit_cons (n : ℕ) (c : Char) (l : List Char)
    (h1 : 48 ≤ c.toNat) (h2 : c.toNat ≤ 57) :
    subNoiseAux (n + 1) (c :: l) = c :: subNoiseAux n l := by
  have hcs : c ≠ 's' := by
    intro h
    rw [h] at h2
    exact absurd h2 (by decide)
  have hct : c ≠ 't' := by
    intro h
    rw [h] at h2
    exact absurd h2 (by decide)
  simp only [subNoiseAux]
  rw [if_neg (by simp [hcs]), if_neg (by simp [hct]),
    if_neg (by simp [isPySpaceB_digit c h1])]

theorem subNoise_all_digits (l : List Char)
    (h : ∀ c ∈ l, 48 ≤ c.toNat ∧ c.toNat ≤ 57) : subNoise l = l := by
  induction l with
  | nil => rfl
  | cons c l ih =>
    have hc := h c (by simp)
    show subNoiseAux (c :: l).length (c :: l) = c :: l
    rw [List.length_cons, subNoiseAux_digit_cons l.length c l hc.1 hc.2]
    exact congrArg (List.cons c) (ih (fun c' hc' => h c' (by simp [hc'])))

theorem takeDigitsAux_all_digits (l : List Char) (n : ℕ) (hn : l.length ≤ n)
    (h : ∀ c ∈ l, isDigitCharB c = true) : takeDigitsAux n l = (l, []) := by
  induction l generalizing n with
  | nil => cases n <;> rfl
  | cons c l ih =>
    cases n with
    | zero => simp at hn
    | succ n =>
      have hc := h c (by simp)
      simp only [takeDigitsAux, hc, if_true]
      rw [ih n (by simpa using hn) (fun c' hc' => h c' (by simp [hc']))]

/-- Claim C10: on a four-digit start token the pro parser keeps only the
last two digits and re-expands them with the pivot at 50, so the season
start is `2000 + v` for `v < 50` and `1900 + v` otherwise, where `v` is the
token's last-two-digit value; in particular `"2055"` yields `"1955-56"`. -/
theorem parseSeasonNBA_four_digit_pivot :
    (∀ (c1 c2 c3 c4 : Char) (y : ℤ) (m : ℕ),
      48 ≤ c1.toNat → c1.toNat ≤ 57 → 48 ≤ c2.toNat → c2.toNat ≤ 57 →
      48 ≤ c3.toNat → c3.toNat ≤ 57 → 48 ≤ c4.toNat → c4.toNat ≤ 57 →
      parseSeasonNBA [c1, c2, c3, c4] y m =
        mkLabelPad
          (if 10 * (c3.toNat - 48) + (c4.toNat - 48) < 50
           then 2000 + ((10 * (c3.toNat - 48) + (c4.toNat - 48) : ℕ) : ℤ)
           else 1900 + ((10 * (c3.toNat - 48) + (c4.toNat - 48) : ℕ) : ℤ))
          ((10 * (c3.toNat - 48) + (c4.toNat - 48) + 1) % 100)) ∧
    (∀ (y : ℤ) (m : ℕ), parseSeasonNBA ("2055".toList) y m = "1955-56") := by
  constructor
  · intro c1 c2 c3 c4 y m h11 h12 h21 h22 h31 h32 h41 h42
    have hd : ∀ c ∈ [c1, c2, c3, c4], 48 ≤ c.toNat ∧ c.toNat ≤ 57 := by
      intro c hc
      simp only [List.mem_cons, List.not_mem_nil, or_false] at hc
      rcases hc with rfl | rfl | rfl | rfl
      exacts [⟨h11, h12⟩, ⟨h21, h22⟩, ⟨h31, h32⟩, ⟨h41, h42⟩]
    have hstrip : pyStrip [c1, c2, c3, c4] = [c1, c2, c3, c4] := by
      simp [pyStrip, isPySpaceB_digit c1 h11, isPySpaceB_digit c2 h21,
        isPySpaceB_digit c3 h31, isPySpaceB_digit c4 h41]
    have hlower : pyLower [c1, c2, c3, c4] = [c1, c2, c3, c4] := by
      simp [pyLower, toLowerChar_digit c1 h12, toLowerChar_digit c2 h22,
        toLowerChar_digit c3 h32, toLowerChar_digit c4 h42]
    have hsub : subNoise [c1, c2, c3, c4] = [c1, c2, c3, c4] :=
      subNoise_all_digits _ hd
    have hdig : ∀ c ∈ [c1, c2, c3, c4], isDigitCharB c = true := fun c hc =>
      isDigitCharB_digit c (hd c hc).1 (hd c hc).2
    have htake : takeDigitsAux 4 [c1, c2, c3, c4] = ([c1, c2, c3, c4], []) :=
      takeDigitsAux_all_digits _ 4 (by simp) hdig
    have hsep : takeDigitsAux 4 (sepSkip ([] : List Char)) = ([], []) := rfl
    have hmatch : matchSeason [c1, c2, c3, c4] =
        some ([c1, c2, c3, c4], none) := by
      simp only [matchSeason, htake, hsep]
      norm_num
    have hpd : parseDigitsNat [c3, c4] =
        10 * (c3.toNat - 48) + (c4.toNat - 48) := by
      simp only [parseDigitsNat, List.foldl]
      omega
    simp only [parseSeasonNBA, hstrip, hlower, hsub, hmatch, List.isEmpty_cons,
      Bool.false_eq_true, if_false]
    simp only [List.length_cons, List.length_nil, List.drop_succ_cons,
      List.drop_zero, hpd]
    norm_num
  · intro y m
    rfl

theorem parseSeasonNBA_four_digit_pivot_witness :
    parseSeasonNBA ['2', '0', '5', '5'] 2025 3 =
      mkLabelPad
        (if 10 * ('5'.toNat - 48) + ('5'.toNat - 48) < 50
         then 2000 + ((10 * ('5'.toNat - 48) + ('5'.toNat - 48) : ℕ) : ℤ)
         else 1900 + ((10 * ('5'.toNat - 48) + ('5'.toNat - 48) : ℕ) : ℤ))
        ((10 * ('5'.toNat - 48) + ('5'.toNat - 48) + 1) % 100) :=
  parseSeasonNBA_four_digit_pivot.1 '2' '0' '5' '5' 2025 3 (by decide)
    (by decide) (by decide) (by decide) (by decide) (by decide) (by decide)
    (by decide)
